import Mathlib

set_option maxHeartbeats 1000000

namespace Dot2Tex

/-!
Shallow embedding of the dot2tex driver module (`dot2tex/dot2tex.py`).

The embedding covers the parts of `main` / `convert_graph` that decide how
conversion options are resolved and how the module-mode pipeline behaves:

* the in-graph `d2toutputformat` / `d2toptions` attribute extraction
  (regex searches at `main`, lines 407-409), modelled line-by-line since the
  anchored patterns match at line starts and cannot cross a line;
* the argparse re-parse of `d2toptions` over the existing namespace
  (lines 415-419), modelled for the option subset the claims exercise
  (`-f --format`, `-t --texmode`, `-s --straightedges`, `--preproc`,
  `-p -c --preview --crop`);
* the output-format fallback chain and converter dispatch (lines 430-445);
* blank-line removal (line 366) and the `\input` substitution (lines 344-360);
* the module-mode exception policy (lines 459-475) and `convert_graph`
  (lines 482-498).

Conversion back ends (pgfformat / pstricksformat modules) are external to the
driver source; they enter the model as an arbitrary function from converter,
emitter context and cleaned source to a conversion result.
-/

/-- ASCII whitespace as matched by Python's `\s`, `str.strip()` and
`str.split()` for the inputs under consideration. -/
def isPySpace (c : Char) : Bool :=
  c == ' ' || c == '\t' || c == '\n' || c == '\r' || c == '\x0b' || c == '\x0c'

/-- Literal open-brace character. -/
def openBrace : Char := Char.ofNat 123

/-- Literal close-brace character. -/
def closeBrace : Char := Char.ofNat 125

/-- Match a literal character sequence at the head of the input, returning the
remainder on success. -/
def matchLit : List Char → List Char → Option (List Char)
  | [], cs => some cs
  | _ :: _, [] => none
  | p :: ps, c :: cs => if c = p then matchLit ps cs else none

/-- Python `str.strip()` restricted to the ASCII whitespace set. -/
def stripWS (s : String) : String :=
  String.mk (((s.data.dropWhile isPySpace).reverse.dropWhile isPySpace).reverse)

/-- Python `str.split()` with no arguments: split on whitespace runs and drop
empty fields. -/
def splitWSAux : List Char → List Char → List String
  | [], acc => if acc.isEmpty then [] else [String.mk acc.reverse]
  | c :: cs, acc =>
    if isPySpace c then
      if acc.isEmpty then splitWSAux cs []
      else String.mk acc.reverse :: splitWSAux cs []
    else splitWSAux cs (c :: acc)

/-- Python `str.split()` with no arguments. -/
def splitWS (s : String) : List String := splitWSAux s.data []

/-- Python `str.splitlines(True)` for newline-terminated text: split after each
newline, keeping the line terminator on each line. -/
def splitlinesAux : List Char → List Char → List String
  | [], acc => if acc.isEmpty then [] else [String.mk acc.reverse]
  | c :: cs, acc =>
    if c = '\n' then String.mk (acc.reverse ++ ['\n']) :: splitlinesAux cs []
    else splitlinesAux cs (c :: acc)

/-- Python `str.splitlines(True)` (newline terminators). -/
def splitlinesTrue (s : String) : List String := splitlinesAux s.data []

/-- The list comprehension at `main` line 366:
`lines = [line for line in dotdata if line.strip()]`. -/
def filterBlank (lines : List String) : List String :=
  lines.filter (fun l => !(stripWS l == ""))

/-- Per-line model of the anchored search
`re.search(r"^\s*\\input\{(?P<filename>.+?)\}", ..., re.MULTILINE)`
(`main` line 345): optional leading whitespace, the literal `\input` and an
open brace, then a shortest nonempty capture up to a closing brace on the same
line. -/
def inputMatchLine (l : String) : Option String :=
  match matchLit ['\\', 'i', 'n', 'p', 'u', 't', openBrace]
      (l.data.dropWhile isPySpace) with
  | none => none
  | some r =>
    match r with
    | [] => none
    | c0 :: rest =>
      if c0 = '\n' then none
      else
        let cap := rest.takeWhile (fun c => !(c == closeBrace) && !(c == '\n'))
        if (rest.drop cap.length).head? = some closeBrace then
          some (String.mk (c0 :: cap))
        else none

/-- First `\input` match over the input lines (`re.search` returns the
leftmost match; the code uses its `filename` group). -/
def firstInputFile (lines : List String) : Option String :=
  lines.findSome? inputMatchLine

/-- Per-line model of
`re.findall(r'^\s*d2toptions\s*=\s*"(.*?)"\s*;?', dotdata, re.MULTILINE)`
(`main` line 409): optional leading whitespace, the literal `d2toptions`,
optional whitespace around `=`, then a shortest (possibly empty) capture
between double quotes on the same line. -/
def d2toptionsOfLine (l : String) : Option String :=
  match matchLit "d2toptions".data (l.data.dropWhile isPySpace) with
  | none => none
  | some r =>
    match r.dropWhile isPySpace with
    | '=' :: r2 =>
      match r2.dropWhile isPySpace with
      | '"' :: r4 =>
        let cap := r4.takeWhile (fun c => !(c == '"') && !(c == '\n'))
        if (r4.drop cap.length).head? = some '"' then some (String.mk cap)
        else none
      | _ => none
    | _ => none

/-- The first capture of the `d2toptions` search (the code uses
`extraoptions[0]`). -/
def firstD2toptions (lines : List String) : Option String :=
  lines.findSome? d2toptionsOfLine

/-- Model of `re.findall(r'd2toutputformat=([a-z]*)', dotdata)` restricted to
its first capture (the code uses `fmtattr[0]`): scan for the literal
`d2toutputformat=` and capture the maximal following run of lowercase
letters, possibly empty. -/
def findFmtAttr : List Char → Option String
  | [] => none
  | c :: cs =>
    match matchLit "d2toutputformat=".data (c :: cs) with
    | some r => some (String.mk (r.takeWhile (fun ch => 'a' ≤ ch && ch ≤ 'z')))
    | none => findFmtAttr cs

/-- The `choices` list of the `-f --format` argument
(`create_options_parser`, lines 80-85). -/
def formatChoices : List String := ["pstricks", "pgf", "pst", "tikz", "psn"]

/-- The `choices` list of the `-t --texmode` argument
(`create_options_parser`, lines 86-90). -/
def texmodeChoices : List String := ["math", "verbatim", "raw"]

/-- The argparse options namespace, restricted to the options the claims
exercise.  `format` is `none` when no `-f` was supplied (`argparse` stores
`None`).  `preproc` models the stray `preproc` attribute that
`options.__dict__.update(kwargs)` can add in `convert_graph`; it is not a
recognized option and `parse_args` never sets it. -/
structure Options where
  format : Option String
  texmode : String
  straightedges : Bool
  texpreproc : Bool
  crop : Bool
  preproc : Option Bool
deriving DecidableEq, Repr

/-- The namespace produced by `parser.parse_args([])`: every option at its
declared default. -/
def defaultOptions : Options :=
  { format := none, texmode := "verbatim", straightedges := false,
    texpreproc := false, crop := false, preproc := none }

/-- The explicit assignments made by one argparse argument list: absent fields
leave the namespace untouched (argparse only re-applies defaults for
attributes missing from the namespace, and on a re-parse they all exist). -/
structure SetArgs where
  format : Option String := none
  texmode : Option String := none
  straightedges : Bool := false
  texpreproc : Bool := false
  crop : Bool := false
deriving DecidableEq, Repr

/-- Apply one parsed argument list over an existing namespace, i.e.
`parser.parse_args(args, options)`: options present in `args` overwrite the
namespace, absent ones keep their existing values. -/
def applyArgs (base : Options) (a : SetArgs) : Options :=
  { format := match a.format with | some v => some v | none => base.format
    texmode := match a.texmode with | some v => v | none => base.texmode
    straightedges := base.straightedges || a.straightedges
    texpreproc := base.texpreproc || a.texpreproc
    crop := base.crop || a.crop
    preproc := base.preproc }

/-- Left-to-right argparse pass over a token list for the modelled option
subset; `none` models the argparse usage error (which raises `SystemExit`),
hit on an unrecognized token, a missing value, or a value outside the
argument's `choices`. -/
def parseArgsAux (acc : SetArgs) : List String → Option SetArgs
  | [] => some acc
  | t :: rest =>
    if t = "-s" || t = "--straightedges" then
      parseArgsAux { acc with straightedges := true } rest
    else if t = "--preproc" then
      parseArgsAux { acc with texpreproc := true } rest
    else if t = "-p" || t = "-c" || t = "--preview" || t = "--crop" then
      parseArgsAux { acc with crop := true } rest
    else if t = "-f" || t = "--format" then
      match rest with
      | v :: rest2 =>
        if v ∈ formatChoices then parseArgsAux { acc with format := some v } rest2
        else none
      | [] => none
    else if t = "-t" || t = "--texmode" then
      match rest with
      | v :: rest2 =>
        if v ∈ texmodeChoices then parseArgsAux { acc with texmode := some v } rest2
        else none
      | [] => none
    else none

/-- Parse a `d2toptions` token list with the modelled option subset. -/
def parseArgList (args : List String) : Option SetArgs := parseArgsAux {} args

/-- Python `x or y` on string-or-None values: `None` and the empty string are
falsy. -/
def pyOr (a b : Option String) : Option String :=
  match a with
  | some s => if s = "" then b else some s
  | none => b

/-- Modelled from the spec: `DEFAULT_OUTPUT_FORMAT` is imported from the
`base` module, which is not part of the driver source; the spec only requires
a fixed default dialect. -/
def DEFAULT_OUTPUT_FORMAT : String := "pgf"

/-- Lines 407-431 of `main`: look up the in-graph `d2toutputformat` and
`d2toptions` attributes in the cleaned source, re-parse the `d2toptions`
string over the command-line namespace, and resolve
`output_format = options.format or gfmt or DEFAULT_OUTPUT_FORMAT`,
storing the result back into `options.format`.  Returns `none` when the
`d2toptions` re-parse raises the argparse usage error. -/
def resolveOptions (cli : Options) (keptLines : List String) : Option Options :=
  let gfmt := findFmtAttr (String.join keptLines).data
  let merged : Option Options :=
    match firstD2toptions keptLines with
    | some s => (parseArgList (splitWS s)).map (applyArgs cli)
    | none => some cli
  match merged with
  | none => none
  | some opts =>
    some { opts with
           format := pyOr opts.format (pyOr gfmt (some DEFAULT_OUTPUT_FORMAT)) }

/-- The converter classes dispatched at `main` lines 433-442. -/
inductive Converter
  | pstricks
  | psn
  | pgf
  | tikz
  | positions
deriving DecidableEq, Repr

/-- The dispatch on `output_format` at `main` lines 433-445; `none` models the
`log.error` + `sys.exit(1)` branch for an unknown format. -/
def selectConverter (fmt : String) : Option Converter :=
  if fmt = "pstricks" || fmt = "pst" then some Converter.pstricks
  else if fmt = "psn" then some Converter.psn
  else if fmt = "pgf" then some Converter.pgf
  else if fmt = "tikz" then some Converter.tikz
  else if fmt = "positions" then some Converter.positions
  else none

/-- Modelled from the spec: the per-conversion `EmitterContext` (spec section
3) is constructed once from the resolved options and carries exactly the
recognized configuration the emitters read; stray namespace attributes such as
a leftover `preproc` key are not part of it. -/
structure EmitterContext where
  format : Option String
  texmode : String
  straightedges : Bool
  texpreproc : Bool
  crop : Bool
deriving DecidableEq, Repr

/-- Project the resolved options onto the emitter-visible configuration. -/
def contextOfOptions (o : Options) : EmitterContext :=
  { format := o.format, texmode := o.texmode, straightedges := o.straightedges,
    texpreproc := o.texpreproc, crop := o.crop }

/-- Python exceptions the module-mode driver can re-raise. -/
inductive PyExc
  | parseErr (msg : String)
  | ioErr
  | otherErr (msg : String)
deriving DecidableEq, Repr

/-- Result of one `conv.convert(dotdata)` call: a LaTeX string or a raised
exception (`dotparsing.ParseException`, `SystemExit`, or anything else — all
re-raised in module mode by `main` lines 459-475). -/
inductive ConvResult
  | ok (s : String)
  | raises (e : PyExc)
deriving DecidableEq, Repr

/-- Outcome of one module-mode run of `main`. -/
inductive Outcome
  | output (s : String)
  | exitErr
  | usageExit
  | raises (e : PyExc)
deriving DecidableEq, Repr

/-- A converter back end as the driver sees it: from dispatched converter
class, emitter context and cleaned dot source to a conversion result.  The
back ends live outside the driver module, so runs are quantified over this
function. -/
def ConvFun : Type := Converter → EmitterContext → String → ConvResult

/-- The conversion phase of module-mode `main` after input loading: blank-line
removal (line 366), option resolution (lines 407-431), converter dispatch
(lines 433-445) and the guarded `conv.convert` call (lines 446-475). -/
def phase2 (conv : ConvFun) (cli : Options) (lines : List String) : Outcome :=
  let kept := filterBlank lines
  let data := String.join kept
  match resolveOptions cli kept with
  | none => Outcome.usageExit
  | some opts =>
    match selectConverter (opts.format.getD "") with
    | none => Outcome.exitErr
    | some c =>
      match conv c (contextOfOptions opts) data with
      | ConvResult.ok s => Outcome.output s
      | ConvResult.raises e => Outcome.raises e

/-- The `\input` substitution at `main` lines 344-360: when some line matches
the `\input` pattern, the whole input is replaced by the named file's lines
(`load_dot_file` returns `readlines` output); a load failure is re-raised in
module mode.  `fs` maps a file name to its lines when loadable. -/
def afterInput (fs : String → Option (List String)) (lines : List String) :
    Except PyExc (List String) :=
  match firstInputFile lines with
  | none => Except.ok lines
  | some fn =>
    match fs fn with
    | some content => Except.ok content
    | none => Except.error PyExc.ioErr

/-- One module-mode run of `main(run_as_module=True, dotdata, options)` on
already-split input lines. -/
def runModule (conv : ConvFun) (fs : String → Option (List String))
    (cli : Options) (lines : List String) : Outcome :=
  match afterInput fs lines with
  | Except.error e => Outcome.raises e
  | Except.ok ls => phase2 conv cli ls

/-- The keyword options accepted by `convert_graph`, for the modelled subset.
A `some` field is a keyword that was passed; `options.__dict__.update(kwargs)`
overwrites the namespace attribute with the given value. -/
structure Kwargs where
  format : Option String := none
  texmode : Option String := none
  straightedges : Option Bool := none
  texpreproc : Option Bool := none
  crop : Option Bool := none
  preproc : Option Bool := none
deriving DecidableEq, Repr

/-- Lines 489-496 of `convert_graph`: start from `parse_args([])` defaults,
rename a truthy `preproc` keyword to `texpreproc`, then update the namespace
dictionary with the keywords.  A retained falsy `preproc` keyword becomes a
stray `preproc` attribute on the namespace. -/
def optionsOfKwargs (k0 : Kwargs) : Options :=
  let k := if k0.preproc = some true then
             { k0 with texpreproc := k0.preproc, preproc := none }
           else k0
  { format := match k.format with | some v => some v | none => defaultOptions.format
    texmode := match k.texmode with | some v => v | none => defaultOptions.texmode
    straightedges := match k.straightedges with
                     | some v => v | none => defaultOptions.straightedges
    texpreproc := match k.texpreproc with
                  | some v => v | none => defaultOptions.texpreproc
    crop := match k.crop with | some v => v | none => defaultOptions.crop
    preproc := k.preproc }

/-- Definition `convert_graph(dotsource, **kwargs)` (lines 482-498): build the
options from the keywords and run `main(True, dotsource, options)`, which
splits the source into lines first (line 341). -/
def convert_graph (conv : ConvFun) (fs : String → Option (List String))
    (k : Kwargs) (dotsource : String) : Outcome :=
  runModule conv fs (optionsOfKwargs k) (splitlinesTrue dotsource)

/-- A point in the layout engine's coordinate space. -/
structure Point where
  x : Int
  y : Int
deriving DecidableEq, Repr

/-- An edge path as computed by the layout engine: endpoints plus interior
spline control points. -/
structure Spline where
  first : Point
  mid : List Point
  last : Point
deriving DecidableEq, Repr

/-- A rendered edge path in the output. -/
inductive RenderedEdge
  | straightSeg (a b : Point)
  | curve (s : Spline)
deriving DecidableEq, Repr

/-- Modelled from the spec: the straight-edges override (spec section 4.3)
forces every edge path to be rendered as a straight segment between its
endpoints regardless of the layout engine's computed curve, bypassing the
spline; the emitters for this override live outside the driver source. -/
def renderEdge (o : Options) (s : Spline) : RenderedEdge :=
  if o.straightedges then RenderedEdge.straightSeg s.first s.last
  else RenderedEdge.curve s

/-- The option-precedence computation exactly as the spec words it: the
command-line options are the base; if no dialect was given on the command
line, a `d2toutputformat` attribute found in the source supplies the dialect,
falling back to the default output format when neither supplies one (an empty
attribute value supplies no dialect); then the `d2toptions` attribute string
is parsed as command-line-style arguments and merged over the base, the
in-graph value winning for any option it sets. -/
def resolveOptionsSpec (cli : Options) (keptLines : List String) : Option Options :=
  let gfmt := findFmtAttr (String.join keptLines).data
  let base :=
    { cli with format := pyOr cli.format (pyOr gfmt (some DEFAULT_OUTPUT_FORMAT)) }
  match firstD2toptions keptLines with
  | some s => (parseArgList (splitWS s)).map (applyArgs base)
  | none => some base

/-- The five dialect selectors named by the spec's configuration sentence. -/
def specDialects : List String := ["pstricks", "psn", "pgf", "tikz", "positions"]

/-! ### The xdot drawing-command parser

The drawing-command parser is not part of the driver source under `src/`; the
definitions below are modelled from the spec (sections 3 and 4.1): a drawing
attribute string is a sequence of single-letter opcodes, each followed by a
fixed-arity, opcode-specific argument list of numbers and length-prefixed
strings; polygon, polyline and spline opcodes declare a point count `n` and
then read exactly `n` coordinate pairs; a length-prefixed string is a byte
count followed by a `-` and exactly that many bytes. -/

/-- Which color the color-setting operation updates (spec section 3,
`SetColor` role). -/
inductive ColorRole
  | pen
  | fill
deriving DecidableEq, Repr

/-- Modelled from the spec: the `DrawOperation` variants of spec section 3
that the drawing-command parser produces. -/
inductive XDrawOp
  | setColor (role : ColorRole) (color : List Char)
  | setLineStyle (style : List Char)
  | setFont (size : Int) (family : List Char)
  | ellipse (filled : Bool) (x y w h : Int)
  | polygon (filled : Bool) (points : List (Int × Int))
  | polyline (points : List (Int × Int))
  | bspline (filled : Bool) (points : List (Int × Int))
  | text (x y j w : Int) (content : List Char)
  | image (x y w h : Int) (file : List Char)
deriving DecidableEq, Repr

/-- The only error kind the drawing-command parser raises (spec section 7). -/
inductive XDotError
  | malformedDrawingString
deriving DecidableEq, Repr

/-- Numeric value of a decimal digit character. -/
def digitVal (c : Char) : Nat := c.toNat - '0'.toNat

/-- Decimal value of a digit run. -/
def natOfDigits (ds : List Char) : Nat :=
  ds.foldl (fun a c => 10 * a + digitVal c) 0

/-- Read a maximal nonempty digit run as a natural number. -/
def readNat (cs : List Char) : Option (Nat × List Char) :=
  let ds := cs.takeWhile Char.isDigit
  if ds.isEmpty then none else some (natOfDigits ds, cs.dropWhile Char.isDigit)

/-- Read an optionally negated integer numeral. -/
def readInt (cs : List Char) : Option (Int × List Char) :=
  match cs with
  | [] => none
  | c :: rest =>
    if c = '-' then (readNat rest).map (fun p => (-(p.1 : Int), p.2))
    else (readNat (c :: rest)).map (fun p => ((p.1 : Int), p.2))

/-- Skip whitespace, then read one numeric argument. -/
def readNum (cs : List Char) : Option (Int × List Char) :=
  readInt (cs.dropWhile isPySpace)

/-- Skip whitespace, then read one declared count. -/
def readNatTok (cs : List Char) : Option (Nat × List Char) :=
  readNat (cs.dropWhile isPySpace)

/-- Read one coordinate pair, in the order (x, y) (spec section 4.1). -/
def readPt (cs : List Char) : Option ((Int × Int) × List Char) :=
  match readNum cs with
  | none => none
  | some (x, r) =>
    match readNum r with
    | none => none
    | some (y, r2) => some ((x, y), r2)

/-- Read exactly the declared number of coordinate pairs. -/
def readPts : Nat → List Char → Option (List (Int × Int) × List Char)
  | 0, cs => some ([], cs)
  | k + 1, cs =>
    match readPt cs with
    | none => none
    | some (p, r) =>
      match readPts k r with
      | none => none
      | some (ps, r2) => some (p :: ps, r2)

/-- Read a length-prefixed string: a declared byte count, whitespace, a `-`
marker, then exactly that many bytes; fails when the declared length exceeds
the remaining bytes. -/
def readLPString (cs : List Char) : Option (List Char × List Char) :=
  match readNatTok cs with
  | none => none
  | some (n, r1) =>
    match r1.dropWhile isPySpace with
    | '-' :: r3 =>
      if r3.length < n then none else some (r3.take n, r3.drop n)
    | _ => none

/-- One step of the drawing-command parse, for an opcode character `c` and
the remaining stream `rest`, with `k` the continuation parsing the stream
after this operation: single-letter opcodes with their declared argument
lists; unknown opcodes are skipped with a logged warning (spec section 4.1);
any truncated or undecodable argument list raises `MalformedDrawingString`.
Numeric arguments are modelled as integer numerals; the claims under
verification concern arity and truncation, not numeral syntax. -/
def parseStep (k : List Char → Except XDotError (List XDrawOp)) (c : Char)
    (rest : List Char) : Except XDotError (List XDrawOp) :=
  if isPySpace c then k rest
  else if c = 'c' then
    match readLPString rest with
    | none => Except.error XDotError.malformedDrawingString
    | some (s, r) => (k r).map (XDrawOp.setColor ColorRole.pen s :: ·)
  else if c = 'C' then
    match readLPString rest with
    | none => Except.error XDotError.malformedDrawingString
    | some (s, r) => (k r).map (XDrawOp.setColor ColorRole.fill s :: ·)
  else if c = 'S' then
    match readLPString rest with
    | none => Except.error XDotError.malformedDrawingString
    | some (s, r) => (k r).map (XDrawOp.setLineStyle s :: ·)
  else if c = 'F' then
    match readNum rest with
    | none => Except.error XDotError.malformedDrawingString
    | some (sz, r1) =>
      match readLPString r1 with
      | none => Except.error XDotError.malformedDrawingString
      | some (s, r2) => (k r2).map (XDrawOp.setFont sz s :: ·)
  else if c = 'e' || c = 'E' then
    match readPt rest with
    | none => Except.error XDotError.malformedDrawingString
    | some ((x, y), r1) =>
      match readPt r1 with
      | none => Except.error XDotError.malformedDrawingString
      | some ((w, h), r2) =>
        (k r2).map (XDrawOp.ellipse (c = 'E') x y w h :: ·)
  else if c = 'p' || c = 'P' then
    match readNatTok rest with
    | none => Except.error XDotError.malformedDrawingString
    | some (n, r1) =>
      match readPts n r1 with
      | none => Except.error XDotError.malformedDrawingString
      | some (ps, r2) => (k r2).map (XDrawOp.polygon (c = 'P') ps :: ·)
  else if c = 'L' then
    match readNatTok rest with
    | none => Except.error XDotError.malformedDrawingString
    | some (n, r1) =>
      match readPts n r1 with
      | none => Except.error XDotError.malformedDrawingString
      | some (ps, r2) => (k r2).map (XDrawOp.polyline ps :: ·)
  else if c = 'b' || c = 'B' then
    match readNatTok rest with
    | none => Except.error XDotError.malformedDrawingString
    | some (n, r1) =>
      match readPts n r1 with
      | none => Except.error XDotError.malformedDrawingString
      | some (ps, r2) => (k r2).map (XDrawOp.bspline (c = 'B') ps :: ·)
  else if c = 'T' then
    match readPt rest with
    | none => Except.error XDotError.malformedDrawingString
    | some ((x, y), r1) =>
      match readNum r1 with
      | none => Except.error XDotError.malformedDrawingString
      | some (j, r2) =>
        match readNum r2 with
        | none => Except.error XDotError.malformedDrawingString
        | some (w, r3) =>
          match readLPString r3 with
          | none => Except.error XDotError.malformedDrawingString
          | some (s, r4) => (k r4).map (XDrawOp.text x y j w s :: ·)
  else if c = 'I' then
    match readPt rest with
    | none => Except.error XDotError.malformedDrawingString
    | some ((x, y), r1) =>
      match readPt r1 with
      | none => Except.error XDotError.malformedDrawingString
      | some ((w, h), r2) =>
        match readLPString r2 with
        | none => Except.error XDotError.malformedDrawingString
        | some (s, r3) => (k r3).map (XDrawOp.image x y w h s :: ·)
  else k rest

/-- Fuel-indexed parse of a drawing attribute string into its operation
sequence.  The fuel only bounds recursion depth; every step consumes at least
one character, so `length + 1` fuel is always enough. -/
def parseOpsF : Nat → List Char → Except XDotError (List XDrawOp)
  | 0, _ => Except.error XDotError.malformedDrawingString
  | _ + 1, [] => Except.ok []
  | fuel + 1, c :: rest => parseStep (parseOpsF fuel) c rest

/-- Parse a drawing attribute string; `length + 1` fuel always suffices. -/
def parseOps (cs : List Char) : Except XDotError (List XDrawOp) :=
  parseOpsF (cs.length + 1) cs

/-- Character of a decimal digit. -/
def digitChar : Nat → Char
  | 0 => '0'
  | 1 => '1'
  | 2 => '2'
  | 3 => '3'
  | 4 => '4'
  | 5 => '5'
  | 6 => '6'
  | 7 => '7'
  | 8 => '8'
  | _ => '9'

/-- Decimal digit run of a natural number. -/
def encNat (n : Nat) : List Char :=
  if h : n < 10 then [digitChar n]
  else encNat (n / 10) ++ [digitChar (n % 10)]
termination_by n
decreasing_by exact Nat.div_lt_self (by omega) (by omega)

/-- Numeral of an integer. -/
def encInt (x : Int) : List Char :=
  if x < 0 then '-' :: encNat x.natAbs else encNat x.toNat

/-- Encoding of one coordinate pair, each number preceded by a space. -/
def encPt (p : Int × Int) : List Char :=
  ' ' :: encInt p.1 ++ ' ' :: encInt p.2

/-- Encoding of a coordinate pair list. -/
def encPts (ps : List (Int × Int)) : List Char := (ps.map encPt).flatten

/-- Encoding of a length-prefixed string. -/
def encLPStr (s : List Char) : List Char :=
  ' ' :: encNat s.length ++ ' ' :: '-' :: s

/-- Reference encoding of one drawing operation, with the opcode letter first
and every argument in its declared position. -/
def encodeOp : XDrawOp → List Char
  | XDrawOp.setColor ColorRole.pen s => 'c' :: encLPStr s
  | XDrawOp.setColor ColorRole.fill s => 'C' :: encLPStr s
  | XDrawOp.setLineStyle s => 'S' :: encLPStr s
  | XDrawOp.setFont sz f => 'F' :: (' ' :: encInt sz) ++ encLPStr f
  | XDrawOp.ellipse filled x y w h =>
    (if filled then 'E' else 'e') :: (encPt (x, y) ++ encPt (w, h))
  | XDrawOp.polygon filled ps =>
    (if filled then 'P' else 'p') :: ' ' :: encNat ps.length ++ encPts ps
  | XDrawOp.polyline ps => 'L' :: ' ' :: encNat ps.length ++ encPts ps
  | XDrawOp.bspline filled ps =>
    (if filled then 'B' else 'b') :: ' ' :: encNat ps.length ++ encPts ps
  | XDrawOp.text x y j w s =>
    'T' :: encPt (x, y) ++ (' ' :: encInt j) ++ (' ' :: encInt w) ++ encLPStr s
  | XDrawOp.image x y w h f =>
    'I' :: encPt (x, y) ++ encPt (w, h) ++ encLPStr f

/-- A remainder is a valid separator context when it is empty or starts with
whitespace. -/
def sepOK (cs : List Char) : Bool :=
  match cs.head? with
  | none => true
  | some c => isPySpace c

/-- Drop the stray `preproc` namespace attribute, keeping every recognized
option. -/
def clearStray (o : Options) : Options :=
  { o with preproc := none }

/-! ## Helper lemmas -/

lemma length_dropWhile_le (p : α → Bool) (l : List α) :
    (l.dropWhile p).length ≤ l.length := by
  induction l with
  | nil => simp
  | cons a l ih =>
    by_cases h : p a
    · rw [List.dropWhile_cons_of_pos h]
      simp only [List.length_cons]
      omega
    · rw [List.dropWhile_cons_of_neg (by simp [h])]

lemma parseArgsAux_format_inv (acc : SetArgs) (l : List String) :
    ∀ a : SetArgs, parseArgsAux acc l = some a →
      a.format = acc.format ∨ ∃ v, a.format = some v ∧ v ∈ formatChoices := by
  induction acc, l using parseArgsAux.induct with
  | case5 acc t g1 g2 g3 g4 v rest2 hmem ih =>
    intro a h
    rw [parseArgsAux.eq_def] at h
    simp only [g1, g2, g3, g4, hmem, ite_true, ite_false] at h
    rcases ih a h with h2 | h2
    · exact Or.inr ⟨v, by simpa using h2, hmem⟩
    · exact Or.inr h2
  | _ =>
    intro a h <;> rw [parseArgsAux.eq_def] at h <;> (try simp_all) <;>
      (try (split_ifs at h <;> simp_all))

lemma findSome?_pre_none {α β : Type} {f : α → Option β} {pre : List α}
    (hpre : ∀ m ∈ pre, f m = none) (l : List α) :
    (pre ++ l).findSome? f = l.findSome? f := by
  induction pre with
  | nil => rfl
  | cons x pre ih =>
    have hx : f x = none := hpre x (by simp)
    simp only [List.cons_append, List.findSome?_cons, hx]
    exact ih (fun m hm => hpre m (by simp [hm]))

/-! ## C1: option precedence -/

/-- C1 (confirmed): the effective options are computed with the claimed
precedence.  The code's resolution (command-line namespace, then the
`output_format = options.format or gfmt or DEFAULT_OUTPUT_FORMAT` chain
applied after the `d2toptions` re-parse) coincides with the spec's wording
(command-line options as base; `d2toutputformat` supplying a dialect when the
command line gave none, with the default as final fallback; the `d2toptions`
argument string parsed and merged over the base, the in-graph value winning
for any option it sets). -/
theorem claim1_option_precedence (cli : Options) (keptLines : List String) :
    resolveOptions cli keptLines = resolveOptionsSpec cli keptLines := by
  rcases hd : firstD2toptions keptLines with _ | s
  · simp [resolveOptions, resolveOptionsSpec, hd]
  · rcases hp : parseArgList (splitWS s) with _ | a
    · simp [resolveOptions, resolveOptionsSpec, hd, hp]
    · rcases parseArgsAux_format_inv {} (splitWS s) a hp with hf | ⟨v, hf, hv⟩
      · simp [resolveOptions, resolveOptionsSpec, hd, hp, applyArgs, hf]
      · have hv2 : v ≠ "" := ne_of_mem_of_not_mem hv (by decide)
        simp [resolveOptions, resolveOptionsSpec, hd, hp, applyArgs, hf, pyOr, hv2]

/-! ## C2: in-graph straight-edges override -/

/-- C2 (counterexample): an input whose source contains the attribute line
`d2toptions="--straightedges"` on its second line, after an earlier
`d2toptions=""` line, does not enable the straight-edges override: the code
only applies the first `d2toptions` capture, so `straightedges` stays `false`
and a curved spline still renders as a curve. -/
theorem claim2_counterexample :
    (["d2toptions=\"\"\n", "d2toptions=\"--straightedges\"\n"].map
        d2toptionsOfLine = [some "", some "--straightedges"]) ∧
    (resolveOptions defaultOptions
        ["d2toptions=\"\"\n", "d2toptions=\"--straightedges\"\n"]).map
      (fun o => o.straightedges) = some false ∧
    (resolveOptions defaultOptions
        ["d2toptions=\"\"\n", "d2toptions=\"--straightedges\"\n"]).map
      (fun o => renderEdge o ⟨⟨0, 0⟩, [⟨5, 9⟩], ⟨10, 0⟩⟩) =
      some (RenderedEdge.curve ⟨⟨0, 0⟩, [⟨5, 9⟩], ⟨10, 0⟩⟩) :=
  ⟨rfl, rfl, rfl⟩

/-- C2 (amended, proved): when the first `d2toptions` attribute line of the
source is `"--straightedges"`, the resolved options carry the straight-edges
override, and every edge — whatever spline the layout engine computed — is
rendered as a straight segment between its endpoints. -/
theorem claim2_straightedges_override (cli : Options) (pre post : List String)
    (l : String) (hpre : ∀ m ∈ pre, d2toptionsOfLine m = none)
    (hl : d2toptionsOfLine l = some "--straightedges") :
    (resolveOptions cli (pre ++ l :: post)).map (fun o => o.straightedges) =
      some true ∧
    ∀ sp : Spline, (resolveOptions cli (pre ++ l :: post)).map
      (fun o => renderEdge o sp) =
      some (RenderedEdge.straightSeg sp.first sp.last) := by
  have hfd : firstD2toptions (pre ++ l :: post) = some "--straightedges" := by
    unfold firstD2toptions
    rw [findSome?_pre_none hpre]
    simp [List.findSome?_cons, hl]
  have hparse : parseArgList (splitWS "--straightedges") =
      some { straightedges := true } := rfl
  constructor
  · simp [resolveOptions, hfd, hparse, applyArgs]
  · intro sp
    simp [resolveOptions, hfd, hparse, applyArgs, renderEdge]

/-- C2 witness: a concrete source whose only `d2toptions` line is the
straight-edges override does run with the override enabled and renders a
concrete curved spline as a straight segment. -/
theorem claim2_witness :
    (resolveOptions defaultOptions
        ([] ++ "d2toptions=\"--straightedges\"\n" :: ["digraph G\n"])).map
      (fun o => o.straightedges) = some true ∧
    (resolveOptions defaultOptions
        ([] ++ "d2toptions=\"--straightedges\"\n" :: ["digraph G\n"])).map
      (fun o => renderEdge o ⟨⟨0, 0⟩, [⟨5, 9⟩], ⟨10, 0⟩⟩) =
      some (RenderedEdge.straightSeg ⟨0, 0⟩ ⟨10, 0⟩) := by
  have h := claim2_straightedges_override defaultOptions [] ["digraph G\n"]
    "d2toptions=\"--straightedges\"\n" (by simp) rfl
  exact ⟨h.1, h.2 ⟨⟨0, 0⟩, [⟨5, 9⟩], ⟨10, 0⟩⟩⟩

/-! ## C3: dialect selectors -/

/-- C3 (counterexample): the dispatch also accepts `pst`, which is not among
the five selectors the claim declares exhaustive. -/
theorem claim3_counterexample :
    selectConverter "pst" = some Converter.pstricks ∧ "pst" ∉ specDialects :=
  ⟨rfl, by decide⟩

/-- C3 (amended, proved): the converter dispatch accepts exactly the six
selectors pstricks, pst, psn, pgf, tikz, positions — `pst` dispatching to the
PSTricks converter like `pstricks` — and each named selector dispatches to its
corresponding converter; the command-line `-f` option's `choices` list
excludes `positions` (so that dialect is reachable only through the in-graph
`d2toutputformat` attribute, whose parse rejects `-f positions`). -/
theorem claim3_dialect_selectors :
    selectConverter "pstricks" = some Converter.pstricks ∧
    selectConverter "pst" = some Converter.pstricks ∧
    selectConverter "psn" = some Converter.psn ∧
    selectConverter "pgf" = some Converter.pgf ∧
    selectConverter "tikz" = some Converter.tikz ∧
    selectConverter "positions" = some Converter.positions ∧
    "positions" ∉ formatChoices ∧
    parseArgList ["-f", "positions"] = none ∧
    ∀ f : String, (selectConverter f).isSome = true ↔
      f ∈ ["pstricks", "pst", "psn", "pgf", "tikz", "positions"] := by
  refine ⟨rfl, rfl, rfl, rfl, rfl, rfl, by decide, rfl, ?_⟩
  intro f
  unfold selectConverter
  by_cases h1 : f = "pstricks" <;> by_cases h2 : f = "pst" <;>
    by_cases h3 : f = "psn" <;> by_cases h4 : f = "pgf" <;>
    by_cases h5 : f = "tikz" <;> by_cases h6 : f = "positions" <;>
    simp_all

/-! ## C4: abort conditions -/

/-- C4 (counterexample): an unrecognized in-graph `d2toutputformat` value
(here `foo`) does not degrade gracefully: the driver reaches the unknown
output format branch and aborts via `sys.exit(1)` instead of converting with a
warning. -/
theorem claim4_counterexample :
    runModule (fun _ _ _ => ConvResult.ok "converted") (fun _ => none)
      defaultOptions ["digraph G d2toutputformat=foo\n"] = Outcome.exitErr := rfl

/-- C4 (amended, proved): module-mode conversion aborts in exactly three ways:
exceptions raised by the converter (the declared error kinds among them) are
re-raised; an in-graph `d2toptions` string that fails to parse aborts with the
argparse usage exit; and an unrecognized effective output format — such as an
unknown in-graph `d2toutputformat` value — aborts via `sys.exit(1)` with an
error, not a warning. -/
theorem claim4_abort_kinds (conv : ConvFun) (cli : Options) (lines : List String) :
    (phase2 conv cli lines = Outcome.usageExit ↔
      resolveOptions cli (filterBlank lines) = none) ∧
    (phase2 conv cli lines = Outcome.exitErr ↔
      ∃ opts, resolveOptions cli (filterBlank lines) = some opts ∧
        selectConverter (opts.format.getD "") = none) ∧
    ∀ e, phase2 conv cli lines = Outcome.raises e ↔
      ∃ opts c, resolveOptions cli (filterBlank lines) = some opts ∧
        selectConverter (opts.format.getD "") = some c ∧
        conv c (contextOfOptions opts) (String.join (filterBlank lines)) =
          ConvResult.raises e := by
  rcases hro : resolveOptions cli (filterBlank lines) with _ | opts
  · simp [phase2, hro]
  · rcases hsel : selectConverter (opts.format.getD "") with _ | c
    · simp [phase2, hro, hsel]
    · rcases hcv : conv c (contextOfOptions opts)
          (String.join (filterBlank lines)) with s | e
      · simp [phase2, hro, hsel, hcv]
      · simp [phase2, hro, hsel, hcv]

/-! ## C5: parse failures re-raised in module mode -/

/-- C5 (confirmed): when the dot-grammar parser fails inside the converter
(`dotparsing.ParseException`), a module-mode run — `convert_graph`, which
calls `main(True, ...)` — re-raises the same exception to the caller instead
of recovering. -/
theorem claim5_parse_error_reraised (conv : ConvFun)
    (fs : String → Option (List String)) (k : Kwargs) (src : String)
    (ls : List String) (opts : Options) (c : Converter) (m : String)
    (hin : afterInput fs (splitlinesTrue src) = Except.ok ls)
    (hro : resolveOptions (optionsOfKwargs k) (filterBlank ls) = some opts)
    (hsel : selectConverter (opts.format.getD "") = some c)
    (hcv : conv c (contextOfOptions opts) (String.join (filterBlank ls)) =
      ConvResult.raises (PyExc.parseErr m)) :
    convert_graph conv fs k src = Outcome.raises (PyExc.parseErr m) := by
  unfold convert_graph runModule
  rw [hin]
  simp [phase2, hro, hsel, hcv]

/-- C5 witness: a converter raising a concrete parse exception surfaces it
unchanged through `convert_graph`. -/
theorem claim5_witness :
    convert_graph (fun _ _ _ => ConvResult.raises (PyExc.parseErr "boom"))
      (fun _ => none) {} "digraph G\n" = Outcome.raises (PyExc.parseErr "boom") :=
  claim5_parse_error_reraised _ _ _ _ ["digraph G\n"]
    { format := some "pgf", texmode := "verbatim", straightedges := false,
      texpreproc := false, crop := false, preproc := none }
    Converter.pgf "boom" rfl rfl rfl rfl

/-! ## C6: determinism -/

/-- C6 (confirmed): conversion is deterministic in its inputs: the module-mode
pipeline threads no state between runs (the on-disk cache is reachable only
with `options.cache and not run_as_module`), so two `convert_graph` runs with
the same dot source and the same keyword options are the same value —
byte-identical output. -/
theorem claim6_deterministic (conv : ConvFun) (fs : String → Option (List String))
    (k : Kwargs) (src : String) :
    convert_graph conv fs k src = convert_graph conv fs k src := rfl

/-! ## C8: blank-line invariance -/

lemma all_of_dropWhile_all {p : Char → Bool} :
    ∀ xs : List Char, (∀ c ∈ xs.dropWhile p, p c) → ∀ c ∈ xs, p c := by
  intro xs
  induction xs with
  | nil => simp
  | cons a t ih =>
    intro h c hc
    by_cases hpa : p a
    · rw [List.dropWhile_cons_of_pos hpa] at h
      rcases List.mem_cons.mp hc with rfl | hc2
      · exact hpa
      · exact ih h c hc2
    · rw [List.dropWhile_cons_of_neg (by simpa using hpa)] at h
      exact absurd (h a (by simp)) hpa

lemma stripWS_empty_iff (l : String) :
    stripWS l = "" ↔ l.data.all isPySpace = true := by
  constructor
  · intro h
    have hx : ((l.data.dropWhile isPySpace).reverse.dropWhile isPySpace).reverse
        = [] := by simpa [stripWS, String.ext_iff] using h
    rw [List.reverse_eq_nil_iff, List.dropWhile_eq_nil_iff] at hx
    rw [List.all_eq_true]
    refine all_of_dropWhile_all l.data (fun c hc => hx c ?_)
    exact List.mem_reverse.mpr hc
  · intro h
    have h2 : l.data.dropWhile isPySpace = [] :=
      List.dropWhile_eq_nil_iff.mpr (fun x hx => (List.all_eq_true.mp h) x hx)
    unfold stripWS
    rw [h2]
    rfl

lemma inputMatchLine_blank {b : String} (hb : stripWS b = "") :
    inputMatchLine b = none := by
  have hall := (stripWS_empty_iff b).mp hb
  have hdrop : b.data.dropWhile isPySpace = [] :=
    List.dropWhile_eq_nil_iff.mpr (fun x hx => (List.all_eq_true.mp hall) x hx)
  unfold inputMatchLine
  rw [hdrop]
  rfl

lemma firstInputFile_insert_blank (pre post : List String) (b : String)
    (hb : stripWS b = "") :
    firstInputFile (pre ++ b :: post) = firstInputFile (pre ++ post) := by
  unfold firstInputFile
  rw [List.findSome?_append, List.findSome?_append]
  congr 1
  simp [List.findSome?_cons, inputMatchLine_blank hb]

lemma filterBlank_insert_blank (pre post : List String) (b : String)
    (hb : stripWS b = "") :
    filterBlank (pre ++ b :: post) = filterBlank (pre ++ post) := by
  simp [filterBlank, List.filter_append, List.filter_cons, hb]

/-- C8 (confirmed): conversion output is invariant under whitespace-only
lines: a module-mode run on lines with an interspersed blank line equals the
run without it (so inserting or removing such lines never changes the
output), because the driver removes exactly the lines whose `strip()` is
empty, keeping every other line — trailing whitespace included — verbatim. -/
theorem claim8_blank_line_invariance :
    (∀ (conv : ConvFun) (fs : String → Option (List String)) (cli : Options)
        (pre post : List String) (b : String), stripWS b = "" →
        runModule conv fs cli (pre ++ b :: post) =
          runModule conv fs cli (pre ++ post)) ∧
    ∀ lines : List String, filterBlank lines =
      lines.filter (fun l => !(l.data.all isPySpace)) := by
  constructor
  · intro conv fs cli pre post b hb
    have hfi := firstInputFile_insert_blank pre post b hb
    have hfb := filterBlank_insert_blank pre post b hb
    unfold runModule afterInput
    rw [hfi]
    rcases hfi2 : firstInputFile (pre ++ post) with _ | fn
    · simp only
      unfold phase2
      rw [hfb]
    · rcases hfs : fs fn with _ | content <;> simp [hfs]
  · intro lines
    unfold filterBlank
    apply List.filter_congr
    intro x hx
    by_cases h : x.data.all isPySpace = true
    · simp [h, (stripWS_empty_iff x).mpr h]
    · have h2 : ¬ stripWS x = "" := fun hc => h ((stripWS_empty_iff x).mp hc)
      simp only [Bool.eq_false_iff] at h ⊢
      simp [h, h2]

/-- C8 witness: inserting a concrete whitespace-only line between two graph
lines leaves the run unchanged. -/
theorem claim8_witness :
    runModule (fun _ _ d => ConvResult.ok d) (fun _ => none) defaultOptions
        (["digraph G\n"] ++ " \t\n" :: ["x\n"]) =
      runModule (fun _ _ d => ConvResult.ok d) (fun _ => none) defaultOptions
        (["digraph G\n"] ++ ["x\n"]) :=
  claim8_blank_line_invariance.1 _ _ defaultOptions ["digraph G\n"] ["x\n"]
    " \t\n" rfl

/-! ## C9: the input directive -/

/-- C9 (confirmed): when some line of the source matches
`\input{filename}` (leading whitespace allowed), the whole input is replaced
by that file's contents before any conversion, also when invoked as a library
through `convert_graph`; the first match decides the file, and a load failure
propagates to the caller in module mode. -/
theorem claim9_input_directive (conv : ConvFun)
    (fs : String → Option (List String)) (k : Kwargs) (src : String)
    (pre post : List String) (l fn : String)
    (hsplit : splitlinesTrue src = pre ++ l :: post)
    (hpre : ∀ m ∈ pre, inputMatchLine m = none)
    (hl : inputMatchLine l = some fn) :
    (∀ content, fs fn = some content →
      convert_graph conv fs k src = phase2 conv (optionsOfKwargs k) content) ∧
    (fs fn = none → convert_graph conv fs k src = Outcome.raises PyExc.ioErr) := by
  have hfi : firstInputFile (pre ++ l :: post) = some fn := by
    unfold firstInputFile
    rw [findSome?_pre_none hpre]
    simp [List.findSome?_cons, hl]
  constructor
  · intro content hc
    simp [convert_graph, runModule, afterInput, hsplit, hfi, hc]
  · intro hn
    simp [convert_graph, runModule, afterInput, hsplit, hfi, hn]

/-- C9 witness: a concrete `\input` line replaces the whole source by the
named file's lines before conversion. -/
theorem claim9_witness :
    convert_graph (fun _ _ d => ConvResult.ok d)
        (fun n => if n = "sub.dot" then some ["digraph G\n"] else none) {}
        " \\input\x7bsub.dot\x7d\n" =
      phase2 (fun _ _ d => ConvResult.ok d) (optionsOfKwargs {})
        ["digraph G\n"] :=
  (claim9_input_directive (fun _ _ d => ConvResult.ok d)
    (fun n => if n = "sub.dot" then some ["digraph G\n"] else none) {}
    " \\input\x7bsub.dot\x7d\n" [] [] " \\input\x7bsub.dot\x7d\n" "sub.dot"
    (by rfl) (by simp) rfl).1 ["digraph G\n"] rfl

/-! ## C10: the preproc keyword alias -/

lemma applyArgs_clearStray (o : Options) (a : SetArgs) :
    applyArgs (clearStray o) a = clearStray (applyArgs o a) := by
  simp [applyArgs, clearStray]

lemma resolveOptions_clearStray (cli : Options) (lines : List String) :
    resolveOptions (clearStray cli) lines =
      (resolveOptions cli lines).map clearStray := by
  unfold resolveOptions
  rcases hd : firstD2toptions lines with _ | s
  · simp [hd, clearStray]
  · rcases hp : parseArgList (splitWS s) with _ | a
    · simp [hd, hp]
    · simp only [hd, hp, Option.map_some']
      rw [applyArgs_clearStray]
      simp [clearStray]

lemma phase2_clearStray (conv : ConvFun) (cli : Options) (lines : List String) :
    phase2 conv (clearStray cli) lines = phase2 conv cli lines := by
  unfold phase2
  simp only [resolveOptions_clearStray]
  rcases hro : resolveOptions cli (filterBlank lines) with _ | opts <;>
    simp only [hro, Option.map_some', Option.map_none'] <;> rfl

lemma runModule_clearStray (conv : ConvFun) (fs : String → Option (List String))
    (cli : Options) (lines : List String) :
    runModule conv fs (clearStray cli) lines = runModule conv fs cli lines := by
  unfold runModule
  rcases h : afterInput fs lines with e | ls
  · rfl
  · simp [phase2_clearStray]

/-- C10 (confirmed): `convert_graph(..., preproc=v)` and
`convert_graph(..., texpreproc=v)` produce the same result for every `v`: a
truthy `preproc` keyword is renamed to `texpreproc` before the options are
applied, and a falsy one only leaves a stray namespace attribute that no
recognized option — hence no emitter — ever reads. -/
theorem claim10_preproc_alias (conv : ConvFun)
    (fs : String → Option (List String)) (k : Kwargs) (src : String) (v : Bool)
    (h1 : k.preproc = none) (h2 : k.texpreproc = none) :
    convert_graph conv fs { k with preproc := some v } src =
      convert_graph conv fs { k with texpreproc := some v } src := by
  cases v
  · unfold convert_graph
    have hcs : clearStray (optionsOfKwargs { k with preproc := some false }) =
        clearStray (optionsOfKwargs { k with texpreproc := some false }) := by
      simp [optionsOfKwargs, clearStray, defaultOptions, h1, h2]
    calc runModule conv fs (optionsOfKwargs { k with preproc := some false })
          (splitlinesTrue src)
        = runModule conv fs
            (clearStray (optionsOfKwargs { k with preproc := some false }))
            (splitlinesTrue src) := (runModule_clearStray _ _ _ _).symm
      _ = runModule conv fs
            (clearStray (optionsOfKwargs { k with texpreproc := some false }))
            (splitlinesTrue src) := by rw [hcs]
      _ = runModule conv fs (optionsOfKwargs { k with texpreproc := some false })
            (splitlinesTrue src) := runModule_clearStray _ _ _ _
  · unfold convert_graph
    have heq : optionsOfKwargs { k with preproc := some true } =
        optionsOfKwargs { k with texpreproc := some true } := by
      simp [optionsOfKwargs, defaultOptions, h1, h2]
    rw [heq]

/-- C10 witness: the two keyword spellings agree on a concrete run. -/
theorem claim10_witness :
    convert_graph (fun _ _ d => ConvResult.ok d) (fun _ => none)
        { preproc := some true } "digraph G\n" =
      convert_graph (fun _ _ d => ConvResult.ok d) (fun _ => none)
        { texpreproc := some true } "digraph G\n" :=
  claim10_preproc_alias _ _ {} _ true rfl rfl

/-! ## C7: the drawing-command parser

Round-trip and truncation lemmas for the spec-modelled xdot parser. -/

lemma digitChar_isDigit (n : Nat) : (digitChar n).isDigit = true := by
  unfold digitChar
  split <;> rfl

lemma digitVal_digitChar {n : Nat} (h : n < 10) :
    digitVal (digitChar n) = n := by
  interval_cases n <;> rfl

lemma encNat_ne_nil (n : Nat) : encNat n ≠ [] := by
  rw [encNat]
  split <;> simp

lemma encNat_all_digits (n : Nat) : ∀ c ∈ encNat n, c.isDigit = true := by
  induction n using encNat.induct with
  | case1 n h =>
    rw [encNat]
    simp only [dif_pos h]
    intro c hc
    rw [List.mem_singleton] at hc
    subst hc
    exact digitChar_isDigit n
  | case2 n h ih =>
    rw [encNat]
    simp only [dif_neg h]
    intro c hc
    rcases List.mem_append.mp hc with hc2 | hc2
    · exact ih c hc2
    · rw [List.mem_singleton] at hc2
      subst hc2
      exact digitChar_isDigit _

lemma natOfDigits_append_one (ds : List Char) (c : Char) :
    natOfDigits (ds ++ [c]) = 10 * natOfDigits ds + digitVal c := by
  unfold natOfDigits
  rw [List.foldl_append]
  rfl

lemma natOfDigits_encNat (n : Nat) : natOfDigits (encNat n) = n := by
  induction n using encNat.induct with
  | case1 n h =>
    rw [encNat]
    simp only [dif_pos h]
    show 10 * 0 + digitVal (digitChar n) = n
    rw [digitVal_digitChar h]
    omega
  | case2 n h ih =>
    rw [encNat]
    simp only [dif_neg h]
    rw [natOfDigits_append_one, ih, digitVal_digitChar (Nat.mod_lt n (by omega))]
    omega

lemma takeWhile_all_append {p : Char → Bool} {l r : List Char}
    (hl : ∀ c ∈ l, p c = true) (hr : ∀ c, r.head? = some c → p c = false) :
    (l ++ r).takeWhile p = l ∧ (l ++ r).dropWhile p = r := by
  induction l with
  | nil =>
    simp only [List.nil_append]
    cases r with
    | nil => simp
    | cons a t =>
      have ha : p a = false := hr a rfl
      constructor
      · rw [List.takeWhile_cons]
        simp [ha]
      · rw [List.dropWhile_cons]
        simp [ha]
  | cons x l ih =>
    have hx : p x = true := hl x (by simp)
    obtain ⟨h1, h2⟩ := ih (fun c hc => hl c (by simp [hc]))
    constructor
    · rw [List.cons_append, List.takeWhile_cons]
      simp [hx, h1]
    · rw [List.cons_append, List.dropWhile_cons]
      simp [hx, h2]

lemma isEmpty_false_of_ne_nil {l : List Char} (h : l ≠ []) :
    l.isEmpty = false := by
  cases l with
  | nil => exact absurd rfl h
  | cons a t => rfl

lemma readNat_enc (n : Nat) (rest : List Char)
    (hr : ∀ c, rest.head? = some c → c.isDigit = false) :
    readNat (encNat n ++ rest) = some (n, rest) := by
  obtain ⟨ht, hd⟩ := takeWhile_all_append (encNat_all_digits n) hr
  unfold readNat
  rw [ht, hd]
  simp only [isEmpty_false_of_ne_nil (encNat_ne_nil n)]
  simp [natOfDigits_encNat]

lemma not_ws_of_digit {c : Char} (h : c.isDigit = true) :
    isPySpace c = false := by
  have h0 : c ≠ ' ' := by rintro rfl; exact absurd h (by decide)
  have h1 : c ≠ '\t' := by rintro rfl; exact absurd h (by decide)
  have h2 : c ≠ '\n' := by rintro rfl; exact absurd h (by decide)
  have h3 : c ≠ '\r' := by rintro rfl; exact absurd h (by decide)
  have h4 : c ≠ '\x0b' := by rintro rfl; exact absurd h (by decide)
  have h5 : c ≠ '\x0c' := by rintro rfl; exact absurd h (by decide)
  simp [isPySpace, h0, h1, h2, h3, h4, h5]

lemma not_digit_of_ws {c : Char} (h : isPySpace c = true) :
    c.isDigit = false := by
  by_cases hd : c.isDigit = true
  · rw [not_ws_of_digit hd] at h
    exact absurd h (by simp)
  · simpa using hd

lemma ne_dash_of_digit {c : Char} (h : c.isDigit = true) : c ≠ '-' := by
  rintro rfl
  exact absurd h (by decide)

lemma dropWhile_eq_self_of_head {p : Char → Bool} {l : List Char}
    (h : ∀ c, l.head? = some c → p c = false) : l.dropWhile p = l := by
  cases l with
  | nil => rfl
  | cons a t =>
    rw [List.dropWhile_cons_of_neg (by simp [h a rfl])]

lemma encInt_head_not_ws (x : Int) (r : List Char) :
    ∀ c, (encInt x ++ r).head? = some c → isPySpace c = false := by
  unfold encInt
  split
  · intro c hc
    simp only [List.cons_append, List.head?_cons, Option.some.injEq] at hc
    subst hc
    decide
  · intro c hc
    rcases he : encNat x.toNat with _ | ⟨d, t⟩
    · exact absurd he (encNat_ne_nil _)
    · rw [he] at hc
      simp only [List.cons_append, List.head?_cons, Option.some.injEq] at hc
      subst hc
      exact not_ws_of_digit (encNat_all_digits _ d (by rw [he]; simp))

lemma readInt_enc (x : Int) (rest : List Char)
    (hr : ∀ c, rest.head? = some c → c.isDigit = false) :
    readInt (encInt x ++ rest) = some (x, rest) := by
  by_cases hx : x < 0
  · have henc : encInt x ++ rest = '-' :: (encNat x.natAbs ++ rest) := by
      unfold encInt
      rw [if_pos hx]
      rfl
    have hstep : readInt ('-' :: (encNat x.natAbs ++ rest)) =
        (readNat (encNat x.natAbs ++ rest)).map (fun p => (-(p.1 : Int), p.2)) := by
      unfold readInt
      simp
    have habs : ((x.natAbs : Int)) = -x := by omega
    rw [henc, hstep, readNat_enc _ _ hr]
    simp [habs]
  · rcases he : encNat x.toNat with _ | ⟨d, t⟩
    · exact absurd he (encNat_ne_nil _)
    · have hd : d.isDigit = true := encNat_all_digits _ d (by rw [he]; simp)
      have hne : d ≠ '-' := ne_dash_of_digit hd
      have henc : encInt x ++ rest = d :: (t ++ rest) := by
        unfold encInt
        rw [if_neg hx, he]
        rfl
      have hstep : readInt (d :: (t ++ rest)) =
          (readNat (d :: (t ++ rest))).map (fun p => ((p.1 : Int), p.2)) := by
        unfold readInt
        simp [hne]
      have hback : d :: (t ++ rest) = encNat x.toNat ++ rest := by
        rw [he]
        rfl
      have ht : ((x.toNat : Int)) = x := by omega
      rw [henc, hstep, hback, readNat_enc _ _ hr]
      simp [ht]

lemma readNum_enc (x : Int) (rest : List Char)
    (hr : ∀ c, rest.head? = some c → c.isDigit = false) :
    readNum (' ' :: (encInt x ++ rest)) = some (x, rest) := by
  unfold readNum
  rw [List.dropWhile_cons_of_pos (by decide),
    dropWhile_eq_self_of_head (encInt_head_not_ws x rest)]
  exact readInt_enc x rest hr

lemma head_not_digit_of_sep {rest : List Char} (h : sepOK rest = true) :
    ∀ c, rest.head? = some c → c.isDigit = false := by
  intro c hc
  unfold sepOK at h
  rw [hc] at h
  exact not_digit_of_ws h

lemma head_not_digit_space (t : List Char) :
    ∀ c, (' ' :: t).head? = some c → c.isDigit = false := by
  intro c hc
  simp only [List.head?_cons, Option.some.injEq] at hc
  subst hc
  decide

lemma readPt_enc (q : Int × Int) (rest : List Char)
    (hr : ∀ c, rest.head? = some c → c.isDigit = false) :
    readPt (encPt q ++ rest) = some (q, rest) := by
  have hassoc : encPt q ++ rest =
      ' ' :: (encInt q.1 ++ (' ' :: (encInt q.2 ++ rest))) := by
    simp [encPt]
  unfold readPt
  rw [hassoc,
    readNum_enc q.1 (' ' :: (encInt q.2 ++ rest)) (head_not_digit_space _)]
  simp only []
  rw [readNum_enc q.2 rest hr]

lemma encNat_head_not_ws (n : Nat) (r : List Char) :
    ∀ c, (encNat n ++ r).head? = some c → isPySpace c = false := by
  intro c hc
  rcases he : encNat n with _ | ⟨d, t⟩
  · exact absurd he (encNat_ne_nil _)
  · rw [he] at hc
    simp only [List.cons_append, List.head?_cons, Option.some.injEq] at hc
    subst hc
    exact not_ws_of_digit (encNat_all_digits n d (by rw [he]; simp))

lemma encPts_head_not_digit (ps : List (Int × Int)) (rest : List Char)
    (hr : ∀ c, rest.head? = some c → c.isDigit = false) :
    ∀ c, (encPts ps ++ rest).head? = some c → c.isDigit = false := by
  cases ps with
  | nil => simpa [encPts] using hr
  | cons p ps =>
    intro c hc
    have : encPts (p :: ps) ++ rest =
        ' ' :: (encInt p.1 ++ ' ' :: encInt p.2 ++ (encPts ps ++ rest)) := by
      simp [encPts, encPt]
    rw [this] at hc
    simp only [List.head?_cons, Option.some.injEq] at hc
    subst hc
    decide

lemma readPts_enc (ps : List (Int × Int)) (rest : List Char)
    (hr : ∀ c, rest.head? = some c → c.isDigit = false) :
    readPts ps.length (encPts ps ++ rest) = some (ps, rest) := by
  induction ps with
  | nil => simp [encPts, readPts]
  | cons p ps ih =>
    have hstep : encPts (p :: ps) ++ rest = encPt p ++ (encPts ps ++ rest) := by
      simp [encPts]
    rw [List.length_cons, hstep]
    unfold readPts
    rw [readPt_enc p _ (encPts_head_not_digit ps rest hr)]
    simp only []
    rw [ih]

lemma readLPString_enc (s rest : List Char) :
    readLPString (encLPStr s ++ rest) = some (s, rest) := by
  have hassoc : encLPStr s ++ rest =
      ' ' :: (encNat s.length ++ (' ' :: ('-' :: (s ++ rest)))) := by
    simp [encLPStr]
  unfold readLPString readNatTok
  rw [hassoc, List.dropWhile_cons_of_pos (by decide),
    dropWhile_eq_self_of_head (encNat_head_not_ws s.length _),
    readNat_enc s.length _ (head_not_digit_space _)]
  simp only []
  rw [List.dropWhile_cons_of_pos (by decide),
    List.dropWhile_cons_of_neg (by decide)]
  simp only []
  rw [if_neg (by simp)]
  rw [List.take_left' rfl, List.drop_left' rfl]

lemma readNat_len {cs : List Char} {n : Nat} {r : List Char}
    (h : readNat cs = some (n, r)) : r.length ≤ cs.length := by
  unfold readNat at h
  by_cases he : (cs.takeWhile Char.isDigit).isEmpty = true
  · simp [he] at h
  · simp only [he, ite_false, Bool.false_eq_true, if_false,
      Option.some.injEq, Prod.mk.injEq] at h
    rw [← h.2]
    exact length_dropWhile_le _ _

lemma readInt_len {cs : List Char} {x : Int} {r : List Char}
    (h : readInt cs = some (x, r)) : r.length ≤ cs.length := by
  unfold readInt at h
  rcases cs with _ | ⟨c, rest⟩
  · simp at h
  · by_cases hc : c = '-'
    · simp only [hc, ite_true, if_pos] at h
      rcases Option.map_eq_some'.mp h with ⟨⟨m, r2⟩, hm, heq⟩
      simp only [Prod.mk.injEq] at heq
      rw [← heq.2]
      exact le_trans (readNat_len hm) (by simp)
    · simp only [hc, ite_false, Bool.false_eq_true, if_false] at h
      rcases Option.map_eq_some'.mp h with ⟨⟨m, r2⟩, hm, heq⟩
      simp only [Prod.mk.injEq] at heq
      rw [← heq.2]
      exact readNat_len hm

lemma readNum_len {cs : List Char} {x : Int} {r : List Char}
    (h : readNum cs = some (x, r)) : r.length ≤ cs.length := by
  unfold readNum at h
  exact le_trans (readInt_len h) (length_dropWhile_le _ _)

lemma readNatTok_len {cs : List Char} {n : Nat} {r : List Char}
    (h : readNatTok cs = some (n, r)) : r.length ≤ cs.length := by
  unfold readNatTok at h
  exact le_trans (readNat_len h) (length_dropWhile_le _ _)

lemma readPt_len {cs : List Char} {q : Int × Int} {r : List Char}
    (h : readPt cs = some (q, r)) : r.length ≤ cs.length := by
  unfold readPt at h
  rcases h1 : readNum cs with _ | ⟨x, r1⟩
  · rw [h1] at h
    simp at h
  · rw [h1] at h
    simp only [] at h
    rcases h2 : readNum r1 with _ | ⟨y, r2⟩
    · rw [h2] at h
      simp at h
    · rw [h2] at h
      simp only [Option.some.injEq, Prod.mk.injEq] at h
      rw [← h.2]
      exact le_trans (readNum_len h2) (readNum_len h1)

lemma readPts_len : ∀ (k : Nat) {cs : List Char} {ps : List (Int × Int)}
    {r : List Char}, readPts k cs = some (ps, r) → r.length ≤ cs.length := by
  intro k
  induction k with
  | zero =>
    intro cs ps r h
    unfold readPts at h
    simp only [Option.some.injEq, Prod.mk.injEq] at h
    rw [← h.2]
  | succ k ih =>
    intro cs ps r h
    unfold readPts at h
    rcases h1 : readPt cs with _ | ⟨q, r1⟩
    · rw [h1] at h
      simp at h
    · rw [h1] at h
      simp only [] at h
      rcases h2 : readPts k r1 with _ | ⟨ps2, r2⟩
      · rw [h2] at h
        simp at h
      · rw [h2] at h
        simp only [Option.some.injEq, Prod.mk.injEq] at h
        rw [← h.2]
        exact le_trans (ih h2) (readPt_len h1)

lemma readLPString_len {cs : List Char} {s r : List Char}
    (h : readLPString cs = some (s, r)) : r.length ≤ cs.length := by
  unfold readLPString at h
  rcases h1 : readNatTok cs with _ | ⟨n, r1⟩
  · rw [h1] at h
    simp at h
  · rw [h1] at h
    simp only [] at h
    rcases h2 : r1.dropWhile isPySpace with _ | ⟨c, r3⟩
    · rw [h2] at h
      simp at h
    · rw [h2] at h
      by_cases hc : c = '-'
      · subst hc
        simp only [] at h
        by_cases hlen : r3.length < n
        · simp [hlen] at h
        · simp only [hlen, ite_false, Bool.false_eq_true, if_false,
            Option.some.injEq, Prod.mk.injEq] at h
          have hr3 : r3.length < r1.length := by
            have := length_dropWhile_le isPySpace r1
            rw [h2] at this
            simp only [List.length_cons] at this
            omega
          rw [← h.2]
          have := List.length_drop n r3
          have h4 := readNatTok_len h1
          omega
      · have : (match r1.dropWhile isPySpace with
            | '-' :: r3 => if r3.length < n then none
                else some (r3.take n, r3.drop n)
            | _ => none) = (none : Option (List Char × List Char)) := by
          rw [h2]
          simp [hc]
        rw [h2] at this
        rw [this] at h
        simp at h

lemma parseStep_congr (k1 k2 : List Char → Except XDotError (List XDrawOp))
    (c : Char) (rest : List Char)
    (hk : ∀ X : List Char, X.length ≤ rest.length → k1 X = k2 X) :
    parseStep k1 c rest = parseStep k2 c rest := by
  unfold parseStep
  by_cases h0 : isPySpace c = true
  · simp only [if_pos h0]
    exact hk rest le_rfl
  simp only [if_neg h0]
  by_cases h1 : c = 'c'
  · simp only [if_pos h1]
    rcases hx : readLPString rest with _ | ⟨s, r⟩ <;> dsimp only
    show Except.map _ (k1 r) = Except.map _ (k2 r)
    exact congrArg _ (hk r (readLPString_len hx))
  simp only [if_neg h1]
  by_cases h2 : c = 'C'
  · simp only [if_pos h2]
    rcases hx : readLPString rest with _ | ⟨s, r⟩ <;> dsimp only
    show Except.map _ (k1 r) = Except.map _ (k2 r)
    exact congrArg _ (hk r (readLPString_len hx))
  simp only [if_neg h2]
  by_cases h3 : c = 'S'
  · simp only [if_pos h3]
    rcases hx : readLPString rest with _ | ⟨s, r⟩ <;> dsimp only
    show Except.map _ (k1 r) = Except.map _ (k2 r)
    exact congrArg _ (hk r (readLPString_len hx))
  simp only [if_neg h3]
  by_cases h4 : c = 'F'
  · simp only [if_pos h4]
    rcases hx : readNum rest with _ | ⟨sz, r1⟩ <;> dsimp only
    rcases hy : readLPString r1 with _ | ⟨s, r2⟩ <;> dsimp only
    show Except.map _ (k1 r2) = Except.map _ (k2 r2)
    exact congrArg _ (hk r2 (le_trans (readLPString_len hy) (readNum_len hx)))
  simp only [if_neg h4]
  by_cases h5 : (c = 'e' || c = 'E') = true
  · simp only [if_pos h5]
    rcases hx : readPt rest with _ | ⟨⟨x, y⟩, r1⟩ <;> dsimp only
    rcases hy : readPt r1 with _ | ⟨⟨w, h⟩, r2⟩ <;> dsimp only
    show Except.map _ (k1 r2) = Except.map _ (k2 r2)
    exact congrArg _ (hk r2 (le_trans (readPt_len hy) (readPt_len hx)))
  simp only [if_neg h5]
  by_cases h6 : (c = 'p' || c = 'P') = true
  · simp only [if_pos h6]
    rcases hx : readNatTok rest with _ | ⟨n, r1⟩ <;> dsimp only
    rcases hy : readPts n r1 with _ | ⟨ps, r2⟩ <;> dsimp only
    show Except.map _ (k1 r2) = Except.map _ (k2 r2)
    exact congrArg _ (hk r2 (le_trans (readPts_len n hy) (readNatTok_len hx)))
  simp only [if_neg h6]
  by_cases h7 : c = 'L'
  · simp only [if_pos h7]
    rcases hx : readNatTok rest with _ | ⟨n, r1⟩ <;> dsimp only
    rcases hy : readPts n r1 with _ | ⟨ps, r2⟩ <;> dsimp only
    show Except.map _ (k1 r2) = Except.map _ (k2 r2)
    exact congrArg _ (hk r2 (le_trans (readPts_len n hy) (readNatTok_len hx)))
  simp only [if_neg h7]
  by_cases h8 : (c = 'b' || c = 'B') = true
  · simp only [if_pos h8]
    rcases hx : readNatTok rest with _ | ⟨n, r1⟩ <;> dsimp only
    rcases hy : readPts n r1 with _ | ⟨ps, r2⟩ <;> dsimp only
    show Except.map _ (k1 r2) = Except.map _ (k2 r2)
    exact congrArg _ (hk r2 (le_trans (readPts_len n hy) (readNatTok_len hx)))
  simp only [if_neg h8]
  by_cases h9 : c = 'T'
  · simp only [if_pos h9]
    rcases hx : readPt rest with _ | ⟨⟨x, y⟩, r1⟩ <;> dsimp only
    rcases hy : readNum r1 with _ | ⟨j, r2⟩ <;> dsimp only
    rcases hz : readNum r2 with _ | ⟨w, r3⟩ <;> dsimp only
    rcases hw : readLPString r3 with _ | ⟨s, r4⟩ <;> dsimp only
    show Except.map _ (k1 r4) = Except.map _ (k2 r4)
    exact congrArg _ (hk r4 (le_trans (readLPString_len hw)
      (le_trans (readNum_len hz) (le_trans (readNum_len hy) (readPt_len hx)))))
  simp only [if_neg h9]
  by_cases h10 : c = 'I'
  · simp only [if_pos h10]
    rcases hx : readPt rest with _ | ⟨⟨x, y⟩, r1⟩ <;> dsimp only
    rcases hy : readPt r1 with _ | ⟨⟨w, h⟩, r2⟩ <;> dsimp only
    rcases hz : readLPString r2 with _ | ⟨s, r3⟩ <;> dsimp only
    show Except.map _ (k1 r3) = Except.map _ (k2 r3)
    exact congrArg _ (hk r3 (le_trans (readLPString_len hz)
      (le_trans (readPt_len hy) (readPt_len hx))))
  simp only [if_neg h10]
  exact hk rest le_rfl

lemma parseOpsF_congr (f1 : Nat) : ∀ (f2 : Nat) (cs : List Char),
    cs.length < f1 → cs.length < f2 → parseOpsF f1 cs = parseOpsF f2 cs := by
  induction f1 with
  | zero =>
    intro f2 cs h1 _
    omega
  | succ g1 ih =>
    intro f2 cs h1 h2
    cases f2 with
    | zero => omega
    | succ g2 =>
      cases cs with
      | nil => rfl
      | cons c rest =>
        show parseStep (parseOpsF g1) c rest = parseStep (parseOpsF g2) c rest
        apply parseStep_congr
        intro X hX
        simp only [List.length_cons] at h1 h2
        exact ih g2 X (by omega) (by omega)

lemma parseOpsF_as_parseOps {f : Nat} {X : List Char} (h : X.length < f) :
    parseOpsF f X = parseOps X :=
  parseOpsF_congr f (X.length + 1) X h (by omega)

lemma parseOps_step (c : Char) (rest : List Char) :
    parseOps (c :: rest) = parseStep (parseOpsF (rest.length + 1)) c rest := rfl

lemma encPt_head_not_digit (q : Int × Int) (r : List Char) :
    ∀ c, (encPt q ++ r).head? = some c → c.isDigit = false := by
  intro c hc
  have : (encPt q ++ r).head? = some ' ' := by
    simp [encPt]
  rw [this] at hc
  simp only [Option.some.injEq] at hc
  subst hc
  decide

lemma encLPStr_head_not_digit (s : List Char) (r : List Char) :
    ∀ c, (encLPStr s ++ r).head? = some c → c.isDigit = false := by
  intro c hc
  have : (encLPStr s ++ r).head? = some ' ' := by
    simp [encLPStr]
  rw [this] at hc
  simp only [Option.some.injEq] at hc
  subst hc
  decide

lemma readNatTok_enc (n : Nat) (rest : List Char)
    (hr : ∀ c, rest.head? = some c → c.isDigit = false) :
    readNatTok (' ' :: (encNat n ++ rest)) = some (n, rest) := by
  unfold readNatTok
  rw [List.dropWhile_cons_of_pos (by decide),
    dropWhile_eq_self_of_head (encNat_head_not_ws n rest)]
  exact readNat_enc n rest hr

lemma encPts_head_not_digit0 (ps : List (Int × Int)) :
    ∀ c, (encPts ps).head? = some c → c.isDigit = false := by
  have h2 := encPts_head_not_digit ps [] (fun c hc => by simp at hc)
  simpa using h2

lemma readPts_short : ∀ (n : Nat) (ps : List (Int × Int)), ps.length < n →
    readPts n (encPts ps) = none := by
  intro n ps
  induction ps generalizing n with
  | nil =>
    intro h
    cases n with
    | zero => omega
    | succ k => rfl
  | cons p ps ih =>
    intro h
    cases n with
    | zero => omega
    | succ k =>
      have hstep : encPts (p :: ps) = encPt p ++ encPts ps := by
        simp [encPts]
      have hhd : ∀ c, (encPts ps).head? = some c → c.isDigit = false := by
        have h2 := encPts_head_not_digit ps [] (fun c hc => by simp at hc)
        simpa using h2
      rw [hstep]
      unfold readPts
      rw [readPt_enc p (encPts ps) hhd]
      dsimp only
      rw [ih k (by simpa using Nat.lt_of_succ_lt_succ h)]

lemma parseOps_encodeOp (op : XDrawOp) (rest : List Char)
    (hsep : sepOK rest = true) :
    parseOps (encodeOp op ++ rest) = (parseOps rest).map (op :: ·) := by
  have hrd : ∀ c, rest.head? = some c → c.isDigit = false :=
    head_not_digit_of_sep hsep
  cases op with
  | setColor role s =>
    cases role with
    | pen =>
      rw [show encodeOp (XDrawOp.setColor ColorRole.pen s) ++ rest =
          'c' :: (encLPStr s ++ rest) from by
        simp [encodeOp, List.append_assoc]]
      rw [parseOps_step]
      unfold parseStep
      rw [if_neg (by decide), if_pos rfl, readLPString_enc s rest]
      dsimp only
      rw [parseOpsF_as_parseOps (by simp only [List.length_append, List.length_cons]; omega)]
      all_goals exact rfl
    | fill =>
      rw [show encodeOp (XDrawOp.setColor ColorRole.fill s) ++ rest =
          'C' :: (encLPStr s ++ rest) from by
        simp [encodeOp, List.append_assoc]]
      rw [parseOps_step]
      unfold parseStep
      rw [if_neg (by decide), if_neg (by decide), if_pos rfl,
        readLPString_enc s rest]
      dsimp only
      rw [parseOpsF_as_parseOps (by simp only [List.length_append, List.length_cons]; omega)]
      all_goals exact rfl
  | setLineStyle s =>
    rw [show encodeOp (XDrawOp.setLineStyle s) ++ rest =
        'S' :: (encLPStr s ++ rest) from by
      simp [encodeOp, List.append_assoc]]
    rw [parseOps_step]
    unfold parseStep
    rw [if_neg (by decide), if_neg (by decide), if_neg (by decide), if_pos rfl,
      readLPString_enc s rest]
    dsimp only
    rw [parseOpsF_as_parseOps (by simp only [List.length_append, List.length_cons]; omega)]
    all_goals exact rfl
  | setFont sz f =>
    rw [show encodeOp (XDrawOp.setFont sz f) ++ rest =
        'F' :: (' ' :: (encInt sz ++ (encLPStr f ++ rest))) from by
      simp [encodeOp, List.append_assoc]]
    rw [parseOps_step]
    unfold parseStep
    rw [if_neg (by decide), if_neg (by decide), if_neg (by decide),
      if_neg (by decide), if_pos rfl,
      readNum_enc sz (encLPStr f ++ rest) (encLPStr_head_not_digit f rest)]
    dsimp only
    rw [readLPString_enc f rest]
    dsimp only
    rw [parseOpsF_as_parseOps (by simp only [List.length_append, List.length_cons]; omega)]
    all_goals exact rfl
  | ellipse filled x y w h =>
    cases filled with
    | false =>
      rw [show encodeOp (XDrawOp.ellipse false x y w h) ++ rest =
          'e' :: (encPt (x, y) ++ (encPt (w, h) ++ rest)) from by
        simp [encodeOp, List.append_assoc]]
      rw [parseOps_step]
      unfold parseStep
      rw [if_neg (by decide), if_neg (by decide), if_neg (by decide),
        if_neg (by decide), if_neg (by decide), if_pos (by decide),
        readPt_enc (x, y) (encPt (w, h) ++ rest) (encPt_head_not_digit _ _)]
      dsimp only
      rw [readPt_enc (w, h) rest hrd]
      dsimp only
      rw [parseOpsF_as_parseOps (by simp only [List.length_append, List.length_cons]; omega)]
      all_goals exact rfl
    | true =>
      rw [show encodeOp (XDrawOp.ellipse true x y w h) ++ rest =
          'E' :: (encPt (x, y) ++ (encPt (w, h) ++ rest)) from by
        simp [encodeOp, List.append_assoc]]
      rw [parseOps_step]
      unfold parseStep
      rw [if_neg (by decide), if_neg (by decide), if_neg (by decide),
        if_neg (by decide), if_neg (by decide), if_pos (by decide),
        readPt_enc (x, y) (encPt (w, h) ++ rest) (encPt_head_not_digit _ _)]
      dsimp only
      rw [readPt_enc (w, h) rest hrd]
      dsimp only
      rw [parseOpsF_as_parseOps (by simp only [List.length_append, List.length_cons]; omega)]
      all_goals exact rfl
  | polygon filled ps =>
    cases filled with
    | false =>
      rw [show encodeOp (XDrawOp.polygon false ps) ++ rest =
          'p' :: (' ' :: (encNat ps.length ++ (encPts ps ++ rest))) from by
        simp [encodeOp, List.append_assoc]]
      rw [parseOps_step]
      unfold parseStep
      rw [if_neg (by decide), if_neg (by decide), if_neg (by decide),
        if_neg (by decide), if_neg (by decide), if_neg (by decide),
        if_pos (by decide),
        readNatTok_enc ps.length (encPts ps ++ rest)
          (encPts_head_not_digit ps rest hrd)]
      dsimp only
      rw [readPts_enc ps rest hrd]
      dsimp only
      rw [parseOpsF_as_parseOps (by simp only [List.length_append, List.length_cons]; omega)]
      all_goals exact rfl
    | true =>
      rw [show encodeOp (XDrawOp.polygon true ps) ++ rest =
          'P' :: (' ' :: (encNat ps.length ++ (encPts ps ++ rest))) from by
        simp [encodeOp, List.append_assoc]]
      rw [parseOps_step]
      unfold parseStep
      rw [if_neg (by decide), if_neg (by decide), if_neg (by decide),
        if_neg (by decide), if_neg (by decide), if_neg (by decide),
        if_pos (by decide),
        readNatTok_enc ps.length (encPts ps ++ rest)
          (encPts_head_not_digit ps rest hrd)]
      dsimp only
      rw [readPts_enc ps rest hrd]
      dsimp only
      rw [parseOpsF_as_parseOps (by simp only [List.length_append, List.length_cons]; omega)]
      all_goals exact rfl
  | polyline ps =>
    rw [show encodeOp (XDrawOp.polyline ps) ++ rest =
        'L' :: (' ' :: (encNat ps.length ++ (encPts ps ++ rest))) from by
      simp [encodeOp, List.append_assoc]]
    rw [parseOps_step]
    unfold parseStep
    rw [if_neg (by decide), if_neg (by decide), if_neg (by decide),
      if_neg (by decide), if_neg (by decide), if_neg (by decide),
      if_neg (by decide), if_pos rfl,
      readNatTok_enc ps.length (encPts ps ++ rest)
        (encPts_head_not_digit ps rest hrd)]
    dsimp only
    rw [readPts_enc ps rest hrd]
    dsimp only
    rw [parseOpsF_as_parseOps (by simp only [List.length_append, List.length_cons]; omega)]
    all_goals exact rfl
  | bspline filled ps =>
    cases filled with
    | false =>
      rw [show encodeOp (XDrawOp.bspline false ps) ++ rest =
          'b' :: (' ' :: (encNat ps.length ++ (encPts ps ++ rest))) from by
        simp [encodeOp, List.append_assoc]]
      rw [parseOps_step]
      unfold parseStep
      rw [if_neg (by decide), if_neg (by decide), if_neg (by decide),
        if_neg (by decide), if_neg (by decide), if_neg (by decide),
        if_neg (by decide), if_neg (by decide), if_pos (by decide),
        readNatTok_enc ps.length (encPts ps ++ rest)
          (encPts_head_not_digit ps rest hrd)]
      dsimp only
      rw [readPts_enc ps rest hrd]
      dsimp only
      rw [parseOpsF_as_parseOps (by simp only [List.length_append, List.length_cons]; omega)]
      all_goals exact rfl
    | true =>
      rw [show encodeOp (XDrawOp.bspline true ps) ++ rest =
          'B' :: (' ' :: (encNat ps.length ++ (encPts ps ++ rest))) from by
        simp [encodeOp, List.append_assoc]]
      rw [parseOps_step]
      unfold parseStep
      rw [if_neg (by decide), if_neg (by decide), if_neg (by decide),
        if_neg (by decide), if_neg (by decide), if_neg (by decide),
        if_neg (by decide), if_neg (by decide), if_pos (by decide),
        readNatTok_enc ps.length (encPts ps ++ rest)
          (encPts_head_not_digit ps rest hrd)]
      dsimp only
      rw [readPts_enc ps rest hrd]
      dsimp only
      rw [parseOpsF_as_parseOps (by simp only [List.length_append, List.length_cons]; omega)]
      all_goals exact rfl
  | text x y j w s =>
    rw [show encodeOp (XDrawOp.text x y j w s) ++ rest =
        'T' :: (encPt (x, y) ++ (' ' :: (encInt j ++ (' ' :: (encInt w ++ (encLPStr s ++ rest)))))) from by
      simp [encodeOp, List.append_assoc]]
    rw [parseOps_step]
    unfold parseStep
    rw [if_neg (by decide), if_neg (by decide), if_neg (by decide),
      if_neg (by decide), if_neg (by decide), if_neg (by decide),
      if_neg (by decide), if_neg (by decide), if_neg (by decide),
      if_pos rfl,
      readPt_enc (x, y) _ (head_not_digit_space _)]
    dsimp only
    rw [readNum_enc j _ (head_not_digit_space _)]
    dsimp only
    rw [readNum_enc w _ (encLPStr_head_not_digit s rest)]
    dsimp only
    rw [readLPString_enc s rest]
    dsimp only
    rw [parseOpsF_as_parseOps (by simp only [List.length_append, List.length_cons]; omega)]
    all_goals exact rfl
  | image x y w h f =>
    rw [show encodeOp (XDrawOp.image x y w h f) ++ rest =
        'I' :: (encPt (x, y) ++ (encPt (w, h) ++ (encLPStr f ++ rest))) from by
      simp [encodeOp, List.append_assoc]]
    rw [parseOps_step]
    unfold parseStep
    rw [if_neg (by decide), if_neg (by decide), if_neg (by decide),
      if_neg (by decide), if_neg (by decide), if_neg (by decide),
      if_neg (by decide), if_neg (by decide), if_neg (by decide),
      if_neg (by decide), if_pos rfl,
      readPt_enc (x, y) _ (encPt_head_not_digit _ _)]
    dsimp only
    rw [readPt_enc (w, h) _ (encLPStr_head_not_digit f rest)]
    dsimp only
    rw [readLPString_enc f rest]
    dsimp only
    rw [parseOpsF_as_parseOps (by simp only [List.length_append, List.length_cons]; omega)]
    all_goals exact rfl

/-- C7 (confirmed, against the spec-modelled parser): the drawing-command
parser consumes exactly the declared arguments of each opcode — parsing a
well-formed operation encoding followed by any separated remainder yields that
operation and continues on the remainder — and it raises
`MalformedDrawingString`, never an operation, on truncated encodings: a bare
opcode with its argument list missing, a point-count opcode whose stream ends
before the declared number of coordinate pairs, and a length-prefixed string
whose declared length exceeds the remaining bytes. -/
theorem claim7_drawing_commands :
    (∀ (op : XDrawOp) (rest : List Char), sepOK rest = true →
      parseOps (encodeOp op ++ rest) = (parseOps rest).map (op :: ·)) ∧
    (∀ c ∈ ['c', 'C', 'S', 'F', 'e', 'E', 'p', 'P', 'L', 'b', 'B', 'T', 'I'],
      parseOps [c] = Except.error XDotError.malformedDrawingString) ∧
    (∀ (filled : Bool) (n : Nat) (ps : List (Int × Int)), ps.length < n →
      parseOps ((if filled then 'P' else 'p') ::
          (' ' :: (encNat n ++ encPts ps))) =
        Except.error XDotError.malformedDrawingString) ∧
    (∀ (n : Nat) (s : List Char), s.length < n →
      parseOps ('c' :: (' ' :: (encNat n ++ (' ' :: ('-' :: s))))) =
        Except.error XDotError.malformedDrawingString) := by
  refine ⟨parseOps_encodeOp, ?_, ?_, ?_⟩
  · intro c hc
    fin_cases hc <;> rfl
  · intro filled n ps h
    cases filled with
    | false =>
      rw [parseOps_step]
      unfold parseStep
      rw [if_neg (by decide), if_neg (by decide), if_neg (by decide),
        if_neg (by decide), if_neg (by decide), if_neg (by decide),
        if_pos (by decide),
        readNatTok_enc n (encPts ps) (encPts_head_not_digit0 ps)]
      dsimp only
      rw [readPts_short n ps h]
    | true =>
      rw [parseOps_step]
      unfold parseStep
      rw [if_neg (by decide), if_neg (by decide), if_neg (by decide),
        if_neg (by decide), if_neg (by decide), if_neg (by decide),
        if_pos (by decide),
        readNatTok_enc n (encPts ps) (encPts_head_not_digit0 ps)]
      dsimp only
      rw [readPts_short n ps h]
  · intro n s h
    rw [parseOps_step]
    unfold parseStep
    rw [if_neg (by decide), if_pos rfl]
    have hlp : readLPString (' ' :: (encNat n ++ (' ' :: ('-' :: s)))) = none := by
      unfold readLPString readNatTok
      rw [List.dropWhile_cons_of_pos (by decide),
        dropWhile_eq_self_of_head (encNat_head_not_ws n _),
        readNat_enc n _ (head_not_digit_space _)]
      dsimp only
      rw [List.dropWhile_cons_of_pos (by decide),
        List.dropWhile_cons_of_neg (by decide)]
      show (if s.length < n then (none : Option (List Char × List Char))
        else some (s.take n, s.drop n)) = none
      rw [if_pos h]
    rw [hlp]

/-- C7 witness: a concrete well-formed ellipse encoding parses to exactly that
operation, and concrete truncated encodings of each kind are rejected with
`MalformedDrawingString`. -/
theorem claim7_witness :
    parseOps (encodeOp (XDrawOp.ellipse false 1 2 3 4) ++ []) =
      (parseOps []).map (XDrawOp.ellipse false 1 2 3 4 :: ·) ∧
    parseOps ['T'] = Except.error XDotError.malformedDrawingString ∧
    parseOps ('p' :: (' ' :: (encNat 2 ++ encPts [(0, 0)]))) =
      Except.error XDotError.malformedDrawingString ∧
    parseOps ('c' :: (' ' :: (encNat 5 ++ (' ' :: ('-' :: ['r', 'e', 'd']))))) =
      Except.error XDotError.malformedDrawingString :=
  ⟨claim7_drawing_commands.1 (XDrawOp.ellipse false 1 2 3 4) [] rfl,
   claim7_drawing_commands.2.1 'T' (by simp),
   claim7_drawing_commands.2.2.1 false 2 [(0, 0)] (by decide),
   claim7_drawing_commands.2.2.2 5 ['r', 'e', 'd'] (by decide)⟩

end Dot2Tex
